import Mathlib

/-!
Verification of the PotatoSwap liquidity-provisioning bot (`src/potato.ts`).

The TypeScript source is shallowly embedded: each function the claims
touch becomes an executable Lean definition over explicit inputs that
stand for the values the original code reads from the chain.  JavaScript
bigints are modelled as `Nat` (all on-chain quantities are nonnegative;
bigint division on nonnegative operands is floor division, matching
`Nat.div`).  JavaScript floating-point configuration values are modelled
as `Rat`, with `BigInt(x)` throwing on a non-integral argument modelled
by an `Option` result.
-/

/-! ## Slippage guard (`addLiquidityETH`, lines 479-482) and config validation -/

/-- Model of the `validateConfig` range check for `slippageTolerance`
(line 117): the configured value passes iff it is not below 0 and not
above 50. -/
def validateSlippageConfig (t : ℚ) : Bool :=
  !(t < 0 || t > 50)

/-- Model of JavaScript `BigInt(x)` applied to a number `x`: succeeds
with the integer value when `x` is integral, otherwise throws a
`RangeError` (modelled as `none`). -/
def jsBigIntOfNumber (q : ℚ) : Option ℤ :=
  if q.den = 1 then some q.num else none

/-- Lines 479-480: `conservativeSlippage = Math.max(config.slippageTolerance, 5)`
followed by `slippageMultiplier = BigInt(100 - conservativeSlippage)`. -/
def slippageMultiplier (tolerance : ℚ) : Option ℤ :=
  jsBigIntOfNumber (100 - max tolerance 5)

/-- Lines 479-482: the minimum-amount computation.  Returns `none` when
`BigInt(100 - conservativeSlippage)` throws.  The bigint divisions
`(amount * multiplier) / 100n` are floor divisions on nonnegative
operands, hence `Nat` division. -/
def computeMinimums (usdtAmount okbAmount : ℕ) (tolerance : ℚ) :
    Option (ℕ × ℕ) :=
  match slippageMultiplier tolerance with
  | none => none
  | some m => some (usdtAmount * m.toNat / 100, okbAmount * m.toNat / 100)

/-! ## Retry wrapper (`retryOperation`, lines 249-272) -/

/-- Shape of a caught JavaScript error, keeping the two fields the retry
classifier inspects: `error.code` and the nested `error.error.code`. -/
structure JsError where
  code : Option String
  nestedCode : Option ℤ
deriving DecidableEq, Repr

/-- Line 257: the transient-network signature,
`error?.code === 'UNKNOWN_ERROR' && error?.error?.code === -32011`. -/
def isTransient (e : JsError) : Bool :=
  e.code == some "UNKNOWN_ERROR" && e.nestedCode == some (-32011)

/-- Outcome of `retryOperation`: the operation's value, a rethrown
operation error, or the unreachable post-loop throw (line 271). -/
inductive RetryResult (α : Type) where
  | ok (a : α)
  | err (e : JsError)
  | exhausted
deriving DecidableEq, Repr

/-- The retry loop of lines 250-270.  `op i` is the outcome of the
`i`-th invocation of the wrapped operation, `remaining` the attempts
left (`maxRetries - i`), and the returned list records the delays slept
(line 262), in order.  The loop retries exactly when the error matches
the transient signature and this is not the last attempt; otherwise it
rethrows. -/
def retryGo {α : Type} (op : ℕ → Except JsError α) (delay : ℕ) :
    ℕ → ℕ → RetryResult α × List ℕ
  | 0, _ => (.exhausted, [])
  | remaining + 1, i =>
    match op i with
    | .ok a => (.ok a, [])
    | .error e =>
      if isTransient e && decide (0 < remaining) then
        match retryGo op delay remaining (i + 1) with
        | (res, sleeps) => (res, delay :: sleeps)
      else
        (.err e, [])

/-- Model of `retryOperation(operation, maxRetries = 3, delay = 2000)`
(lines 249-272), over the sequence of per-attempt outcomes. -/
def retryOperation {α : Type} (op : ℕ → Except JsError α)
    (maxRetries : ℕ) (delay : ℕ) : RetryResult α × List ℕ :=
  retryGo op delay maxRetries 0

/-! ## Funding check (`validateWalletBalances`, lines 198-245) and the
main-flow gate (lines 520-526) -/

/-- Balances of one sub-wallet, in smallest units. -/
structure WalletBalance where
  okb : ℕ
  usdt : ℕ
deriving DecidableEq, Repr

/-- Lines 221-222: the per-wallet sufficiency flags
`okbSufficient = okbBalance >= requiredOkb` and
`usdtSufficient = usdtBalance >= requiredUsdt`. -/
def checkWallet (w : WalletBalance) (requiredOkb requiredUsdt : ℕ) :
    Bool × Bool :=
  (decide (requiredOkb ≤ w.okb), decide (requiredUsdt ≤ w.usdt))

/-- Lines 198-245: `allValid` starts true and is cleared whenever either
flag of any wallet is false; the function returns the conjunction over
all wallets. -/
def validateWalletBalances (ws : List WalletBalance)
    (requiredOkb requiredUsdt : ℕ) : Bool :=
  ws.all fun w =>
    (checkWallet w requiredOkb requiredUsdt).1 &&
    (checkWallet w requiredOkb requiredUsdt).2

/-- Lines 520-526 of `main`: when `validateWalletBalances` returns
false, `main` throws before the batch loop, so no wallet enters the
submission phase; otherwise every wallet (by index) is batched. -/
def walletsSubmitted (ws : List WalletBalance)
    (requiredOkb requiredUsdt : ℕ) : List ℕ :=
  if validateWalletBalances ws requiredOkb requiredUsdt then
    List.range ws.length
  else
    []

/-! ## Batch scheduler (`main`, lines 531-628) -/

/-- Lines 535-628: the batch loop.  `ws` is the remaining wallet list,
each entry the job outcome flag of that wallet (the per-job `try/catch`
at lines 541-616 converts every failure into a `success: false` record,
so a job never rejects and `Promise.allSettled` yields one fulfilled
result per job, in `map` order).  `i` is the running start index; the
slice size is the hardcoded `maxConcurrent = 3` (line 532).  Returns the
flattened outcome list (`walletIndex`, `success`) and the list of
inter-batch delays taken (2000 ms each, line 626, only when further
wallets remain). -/
def mainBatchLoop : List Bool → ℕ → List (ℕ × Bool) × List ℕ
  | [], _ => ([], [])
  | w :: tl, i =>
    let batch := (w :: tl).take 3
    let rest := (w :: tl).drop 3
    let batchResults := List.enumFrom i batch
    let next := mainBatchLoop rest (i + 3)
    (batchResults ++ next.1, if rest.isEmpty then next.2 else 2000 :: next.2)
  termination_by ws _ => ws.length
  decreasing_by simp [List.length_drop]; omega

/-! ## Price oracle (`getOkbAmountFromRouter`, lines 311-385) and the
caller-side reference fallback (`main`, lines 563-586) -/

/-- Outcome of one external contract call: a value, or a thrown error. -/
inductive ExtCall (α : Type) where
  | ok (a : α)
  | thrown
deriving DecidableEq, Repr

/-- The chain responses `getOkbAmountFromRouter` consumes, one field per
external call it performs: the direct `getAmountsOut` route (its second
array element, line 323), `router.factory()`, `factory.getPair`,
`pair.getReserves()`, `pair.token0()`, and whether `router.quote`
throws.  `router.quote(amountA, reserveA, reserveB)` is the UniswapV2
pure function `amountA * reserveB / reserveA`; when it does not throw it
is modelled by that formula. -/
structure OracleEnv where
  getAmountsOut : ExtCall ℕ
  factory : ExtCall String
  getPair : ExtCall String
  getReserves : ExtCall (ℕ × ℕ)
  token0 : ExtCall String
  quoteThrows : Bool

/-- Model of JavaScript `String.prototype.toLowerCase()` as used on hex
addresses (lines 355, 415): lower-case every character.  (`Char.toLower`
agrees with the JavaScript builtin on the ASCII range addresses are
drawn from.) -/
def jsToLowerCase (s : String) : String :=
  String.mk (s.data.map Char.toLower)

/-- Value of `ethers.ZeroAddress`, compared against the factory's pair lookup
result (line 344). -/
def zeroAddress : String := "0x0000000000000000000000000000000000000000"

/-- Value of `ethers.parseEther("0.1")`, the minimum-liquidity threshold of
line 364. -/
def minWokbReserve : ℕ := 10 ^ 17

/-- Lines 311-385.  Tier 1: return `getAmountsOut`'s output if it
succeeds (lines 321-332).  Tier 2 (reached only when tier 1 threw):
factory lookup, zero-pair check (line 344), reserve read, `token0`
case-insensitive comparison against the configured USDT address
(line 355) to orient the reserves, the 0.1-WOKB threshold (line 364),
then `router.quote`.  Any throw in tier 2 reaches the outer `catch`
(line 381) and yields `null`; the zero-pair and low-reserve branches
yield `null` without throwing. -/
def getOkbAmountFromRouter (env : OracleEnv) (cfgUsdt : String)
    (usdtAmount : ℕ) : Option ℕ :=
  match env.getAmountsOut with
  | .ok okbAmount => some okbAmount
  | .thrown =>
    match env.factory with
    | .thrown => none
    | .ok _ =>
      match env.getPair with
      | .thrown => none
      | .ok pairAddress =>
        if pairAddress = zeroAddress then none
        else
          match env.getReserves with
          | .thrown => none
          | .ok (reserve0, reserve1) =>
            match env.token0 with
            | .thrown => none
            | .ok token0 =>
              let reserves :=
                if jsToLowerCase token0 = jsToLowerCase cfgUsdt then
                  (reserve0, reserve1)
                else (reserve1, reserve0)
              if reserves.2 < minWokbReserve then none
              else if env.quoteThrows then none
              else some (usdtAmount * reserves.2 / reserves.1)

/-- Lines 578-580 of `main`: the hardcoded reference tier.
`referencePrice = 168.44`; `okbNeeded = formatUnits(usdtAmount, 6) / 168.44`
(6-decimal USDT units to a plain number), then `parseEther` scales by
`10^18`.  The double arithmetic is modelled exactly over `ℚ`. -/
def referenceFallback (usdtAmount : ℕ) : ℚ :=
  (usdtAmount : ℚ) / 10 ^ 6 / (16844 / 100) * 10 ^ 18

/-- Lines 563-586 of `main`: `okbAmount` is the quoted value when the
quote is non-null and positive (`if (quotedOkbAmount && quotedOkbAmount > 0)`,
line 565), and the reference-fallback amount otherwise. -/
def selectOkbAmount (quoted : Option ℕ) (usdtAmount : ℕ) : ℚ :=
  match quoted with
  | some v => if 0 < v then (v : ℚ) else referenceFallback usdtAmount
  | none => referenceFallback usdtAmount

/-! ## Authorization step (`approveTokenForSwap`, lines 275-308) -/

/-- Lines 275-308, as a function of the two chain reads it performs
(`allowance`, `totalSupply`).  Returns the value of the TypeScript
function (`none` for the `return null` skip branch, `some ()` standing
for the final `tx.hash`) together with the ordered list of approval
amounts submitted (each `approve` is awaited to confirmation before the
next step).  Allowance ≥ `totalSupply / 2n` (floor division) skips; a
nonzero insufficient allowance is first reset to 0; the final approval
is for the full `totalSupply`. -/
def approveTokenForSwap (currentAllowance totalSupply : ℕ) :
    Option Unit × List ℕ :=
  if totalSupply / 2 ≤ currentAllowance then (none, [])
  else if 0 < currentAllowance then (some (), [0, totalSupply])
  else (some (), [totalSupply])

/-- The allowance that results from replaying a list of `approve`
amounts on top of a starting allowance (each approval overwrites it). -/
def applyApprovals (allowance : ℕ) (approvals : List ℕ) : ℕ :=
  approvals.foldl (fun _ a => a) allowance

/-! ## Deposit submitter (`addLiquidityETH`, lines 432-505) -/

/-- The chain reads of the final verification block (lines 449-468):
live OKB balance, live USDT balance, live USDT allowance toward the
router, and the USDT total supply. -/
structure FinalCheckEnv where
  okbBalance : ℕ
  usdtBalance : ℕ
  usdtAllowance : ℕ
  usdtTotalSupply : ℕ
deriving DecidableEq, Repr

/-- The errors `addLiquidityETH` can throw before submitting, each
carrying the required and actual amounts its message interpolates
(lines 461-471), plus the `BigInt` `RangeError` of line 480. -/
inductive LiqError where
  | okbInsufficient (required actual : ℕ)
  | usdtInsufficient (required actual : ℕ)
  | allowanceInsufficient (required actual : ℕ)
  | rangeError (operand : ℚ)
deriving DecidableEq, Repr

/-- The argument record of the router `addLiquidityETH` call
(lines 491-499): desired USDT, the two computed minimums, and the OKB
amount attached as transaction value. -/
structure DepositCall where
  usdtAmount : ℕ
  usdtAmountMin : ℕ
  okbAmountMin : ℕ
  value : ℕ
deriving DecidableEq, Repr

/-- Lines 449-499 of `addLiquidityETH`, after the `approveTokenForSwap`
call: the three re-checks in source order (OKB balance, USDT balance,
then allowance, which passes when it covers `usdtAmount` or is at least
half the total supply), then the slippage computation, then the router
call.  An `Except.error` means the function threw and no deposit
transaction was submitted; `Except.ok` carries the submitted call. -/
def addLiquidityETH (env : FinalCheckEnv) (usdtAmount okbAmount : ℕ)
    (tolerance : ℚ) : Except LiqError DepositCall :=
  if env.okbBalance < okbAmount then
    .error (.okbInsufficient okbAmount env.okbBalance)
  else if env.usdtBalance < usdtAmount then
    .error (.usdtInsufficient usdtAmount env.usdtBalance)
  else if env.usdtAllowance < usdtAmount ∧
      env.usdtAllowance < env.usdtTotalSupply / 2 then
    .error (.allowanceInsufficient usdtAmount env.usdtAllowance)
  else
    match computeMinimums usdtAmount okbAmount tolerance with
    | none => .error (.rangeError (100 - max tolerance 5))
    | some (usdtAmountMin, okbAmountMin) =>
      .ok ⟨usdtAmount, usdtAmountMin, okbAmountMin, okbAmount⟩

/-! ## Helper lemmas -/

/-- Subtracting a rational from an integer constant preserves
integrality of the denominator in both directions. -/
lemma den_one_sub_const (c : ℤ) (t : ℚ) :
    ((c : ℚ) - t).den = 1 ↔ t.den = 1 := by
  constructor
  · intro h
    have h2 := (Rat.den_eq_one_iff _).mp h
    have h3 : t = ((c - ((c : ℚ) - t).num : ℤ) : ℚ) := by
      push_cast
      rw [h2]
      ring
    rw [h3]
    exact Rat.den_intCast _
  · intro h
    have h2 := (Rat.den_eq_one_iff t).mp h
    have h3 : (c : ℚ) - t = ((c - t.num : ℤ) : ℚ) := by
      push_cast
      rw [h2]
    rw [h3]
    exact Rat.den_intCast _

/-- On a natural-number tolerance of at most 50, the `BigInt` conversion
in the slippage computation succeeds and yields `100 - max t 5`. -/
lemma slippageMultiplier_natCast (t : ℕ) (ht : t ≤ 50) :
    slippageMultiplier (t : ℚ) = some ((100 - max t 5 : ℕ) : ℤ) := by
  unfold slippageMultiplier jsBigIntOfNumber
  have hcast : (100 : ℚ) - max (t : ℚ) 5 = ((100 - max t 5 : ℕ) : ℚ) := by
    rw [Nat.cast_sub (show max t 5 ≤ 100 by omega)]
    push_cast
    ring
  rw [hcast]
  simp

/-- On a natural-number tolerance of at most 50, `computeMinimums`
returns the floor-divided minimum pair. -/
lemma computeMinimums_natCast (u o t : ℕ) (ht : t ≤ 50) :
    computeMinimums u o (t : ℚ) =
      some (u * (100 - max t 5) / 100, o * (100 - max t 5) / 100) := by
  unfold computeMinimums
  rw [slippageMultiplier_natCast t ht]
  simp

/-! ## Claim theorems -/

/-- C3 (counterexample): at the configured tolerance 7.5 — which passes
the `validateConfig` range check — the minimum-amount computation does
not return the claimed floor values at desired amounts (100, 100); it
throws (`BigInt(92.5)` raises a `RangeError`), so the claim's universal
statement over all tolerances in [0, 50] fails. -/
theorem computeMinimums_fractional_counterexample :
    validateSlippageConfig (15 / 2) = true ∧
    computeMinimums 100 100 (15 / 2) = none ∧
    computeMinimums 100 100 (15 / 2) ≠ some (92, 92) := by
  have hden : ((100 : ℚ) - max (15 / 2) 5).den = 2 := by norm_num
  have hm : slippageMultiplier (15 / 2) = none := by
    unfold slippageMultiplier jsBigIntOfNumber
    rw [hden]
    norm_num
  refine ⟨?_, ?_, ?_⟩
  · unfold validateSlippageConfig
    norm_num
  · unfold computeMinimums
    rw [hm]
  · unfold computeMinimums
    rw [hm]
    simp

/-- C3 (amended): for every integer tolerance t in [0, 50] the computed
minimums are `minX = floor(desiredX * (100 - max(t, 5)) / 100)`, both
minimums are at most the desired amounts, and the effective tolerance
`max(t, 5)` is at least 5.  (The original claim quantified over all
configured tolerances in [0, 50]; non-integral ones make the computation
throw instead — see the counterexample.) -/
theorem computeMinimums_intTolerance (t : ℕ) (ht : t ≤ 50) (u o : ℕ) :
    computeMinimums u o (t : ℚ) =
      some (u * (100 - max t 5) / 100, o * (100 - max t 5) / 100) ∧
    u * (100 - max t 5) / 100 ≤ u ∧
    o * (100 - max t 5) / 100 ≤ o ∧
    5 ≤ max t 5 := by
  refine ⟨computeMinimums_natCast u o t ht, ?_, ?_, le_max_right t 5⟩
  · calc u * (100 - max t 5) / 100 ≤ u * 100 / 100 :=
          Nat.div_le_div_right (Nat.mul_le_mul_left u (by omega))
      _ = u := Nat.mul_div_cancel u (by norm_num)
  · calc o * (100 - max t 5) / 100 ≤ o * 100 / 100 :=
          Nat.div_le_div_right (Nat.mul_le_mul_left o (by omega))
      _ = o := Nat.mul_div_cancel o (by norm_num)

/-- C3 (witness): the amended theorem applied at tolerance 10 and
desired amounts (100, 100). -/
theorem computeMinimums_intTolerance_witness :
    computeMinimums 100 100 ((10 : ℕ) : ℚ) =
      some (100 * (100 - max 10 5) / 100, 100 * (100 - max 10 5) / 100) ∧
    100 * (100 - max 10 5) / 100 ≤ 100 ∧
    100 * (100 - max 10 5) / 100 ≤ 100 ∧
    5 ≤ max 10 5 :=
  computeMinimums_intTolerance 10 (by decide) 100 100

/-- C10: a non-integral tolerance such as 7.5 passes the config range
check, yet makes `BigInt(100 - conservativeSlippage)` throw, so for
every wallet state the deposit call errors out and no deposit
transaction is produced; moreover the slippage conversion is total
exactly when the tolerance is at most 5 (the floor guard makes the
operand the integer 95) or is itself integral. -/
theorem slippage_rangeError :
    validateSlippageConfig (15 / 2) = true ∧
    (∀ (env : FinalCheckEnv) (u o : ℕ),
      ¬env.okbBalance < o → ¬env.usdtBalance < u →
      ¬(env.usdtAllowance < u ∧ env.usdtAllowance < env.usdtTotalSupply / 2) →
      addLiquidityETH env u o (15 / 2) =
        .error (.rangeError (100 - max (15 / 2) 5))) ∧
    (∀ (env : FinalCheckEnv) (u o : ℕ), ∃ e,
      addLiquidityETH env u o (15 / 2) = .error e) ∧
    (∀ t : ℚ, (slippageMultiplier t).isSome ↔ (t ≤ 5 ∨ t.den = 1)) := by
  have hden : ((100 : ℚ) - max (15 / 2) 5).den = 2 := by norm_num
  have hm : slippageMultiplier (15 / 2) = none := by
    unfold slippageMultiplier jsBigIntOfNumber
    rw [hden]
    norm_num
  have hcm : ∀ u o : ℕ, computeMinimums u o (15 / 2) = none := by
    intro u o
    unfold computeMinimums
    rw [hm]
  refine ⟨by unfold validateSlippageConfig; norm_num, ?_, ?_, ?_⟩
  · intro env u o h1 h2 h3
    unfold addLiquidityETH
    rw [if_neg h1, if_neg h2, if_neg h3, hcm]
  · intro env u o
    unfold addLiquidityETH
    split
    · exact ⟨_, rfl⟩
    · split
      · exact ⟨_, rfl⟩
      · split
        · exact ⟨_, rfl⟩
        · rw [hcm]
          exact ⟨_, rfl⟩
  · intro t
    unfold slippageMultiplier jsBigIntOfNumber
    rcases le_or_lt t 5 with h | h
    · rw [max_eq_right h]
      have h95 : ((100 : ℚ) - 5).den = 1 := by norm_num
      simp [h95]
      exact Or.inl h
    · rw [max_eq_left h.le]
      constructor
      · intro hsome
        right
        have hd : ((100 : ℚ) - t).den = 1 := by
          by_contra hne
          simp [hne] at hsome
        exact (den_one_sub_const 100 t).mp (by exact_mod_cast hd)
      · intro hcase
        rcases hcase with hle | hden1
        · exact absurd hle (not_le.mpr h)
        · have hd : ((100 : ℚ) - t).den = 1 :=
            (den_one_sub_const 100 t).mpr hden1
          simp [hd]

/-- C10 (witness): the theorem applied at a wallet state passing all
re-checks, desired amounts (5, 5) and tolerance 7.5: the deposit call
ends in the `RangeError`. -/
theorem slippage_rangeError_witness :
    addLiquidityETH ⟨10, 10, 10, 20⟩ 5 5 (15 / 2) =
      .error (.rangeError (100 - max (15 / 2) 5)) :=
  slippage_rangeError.2.1 ⟨10, 10, 10, 20⟩ 5 5 (by decide) (by decide)
    (by decide)

/-- Retry loop invariant: `k` transient failures starting at index `i`
followed by a success, with attempts to spare, yield the success value
and exactly `k` sleeps of the fixed delay. -/
lemma retryGo_transient_then_ok {α : Type} (op : ℕ → Except JsError α)
    (delay : ℕ) :
    ∀ (k r i : ℕ) (v : α), k < r →
      (∀ j, j < k → ∃ e, op (i + j) = Except.error e ∧ isTransient e = true) →
      op (i + k) = Except.ok v →
      retryGo op delay r i = (.ok v, List.replicate k delay) := by
  intro k
  induction k with
  | zero =>
    intro r i v hk hfail hok
    obtain ⟨r', rfl⟩ : ∃ r', r = r' + 1 := ⟨r - 1, by omega⟩
    rw [Nat.add_zero] at hok
    simp [retryGo, hok]
  | succ k ih =>
    intro r i v hk hfail hok
    obtain ⟨r', rfl⟩ : ∃ r', r = r' + 1 := ⟨r - 1, by omega⟩
    obtain ⟨e, he, htr⟩ := hfail 0 (Nat.succ_pos k)
    rw [Nat.add_zero] at he
    have hr' : 0 < r' := by omega
    have hrec := ih r' (i + 1) v (by omega)
      (fun j hj => by
        obtain ⟨e', he', htr'⟩ := hfail (j + 1) (by omega)
        exact ⟨e', by rwa [show i + (j + 1) = i + 1 + j by omega] at he', htr'⟩)
      (by rwa [show i + (k + 1) = i + 1 + k by omega] at hok)
    simp [retryGo, he, htr, hr', hrec, List.replicate_succ]

/-- Retry loop invariant: when every remaining attempt fails with the
transient signature, the loop sleeps after each attempt but the last and
rethrows the last attempt's error. -/
lemma retryGo_all_transient {α : Type} (op : ℕ → Except JsError α)
    (delay : ℕ) (es : ℕ → JsError) :
    ∀ (r i : ℕ), 1 ≤ r →
      (∀ j, j < r → op (i + j) = Except.error (es (i + j)) ∧
        isTransient (es (i + j)) = true) →
      retryGo op delay r i =
        (.err (es (i + (r - 1))), List.replicate (r - 1) delay) := by
  intro r
  induction r with
  | zero => omega
  | succ r' ih =>
    intro i hr hfail
    obtain ⟨he, htr⟩ := hfail 0 (Nat.succ_pos r')
    rw [Nat.add_zero] at he htr
    rcases Nat.eq_zero_or_pos r' with hz | hpos
    · subst hz
      simp [retryGo, he, htr]
    · have hrec := ih (i + 1) hpos
        (fun j hj => by
          have := hfail (j + 1) (by omega)
          rwa [show i + (j + 1) = i + 1 + j by omega] at this)
      have hidx : i + 1 + (r' - 1) = i + (r' + 1 - 1) := by omega
      rw [hidx] at hrec
      have hrep : r' + 1 - 1 = (r' - 1) + 1 := by omega
      simp [retryGo, he, htr, hpos, hrec, hrep, List.replicate_succ]

/-- C4: when the wrapped operation fails with the transient signature
(code UNKNOWN_ERROR, nested code -32011) exactly k times with
k < maxRetries and then succeeds, `retryOperation` returns the success
value and has slept exactly k times, each for the fixed delay. -/
theorem retryOperation_transient_then_success {α : Type}
    (op : ℕ → Except JsError α) (maxRetries delay k : ℕ) (v : α)
    (hk : k < maxRetries)
    (hfail : ∀ j, j < k → ∃ e, op j = Except.error e ∧ isTransient e = true)
    (hok : op k = Except.ok v) :
    retryOperation op maxRetries delay = (.ok v, List.replicate k delay) := by
  unfold retryOperation
  exact retryGo_transient_then_ok op delay k maxRetries 0 v hk
    (fun j hj => by simpa using hfail j hj) (by simpa using hok)

/-- C4 (witness): one transient failure then success, three attempts
allowed: the value 42 is returned after exactly one 2000 ms sleep. -/
theorem retryOperation_transient_then_success_witness :
    retryOperation
      (fun i => if i = 0 then
          Except.error ⟨some "UNKNOWN_ERROR", some (-32011)⟩
        else Except.ok (42 : ℕ)) 3 2000 =
      (.ok 42, List.replicate 1 2000) :=
  retryOperation_transient_then_success _ 3 2000 1 42 (by omega)
    (fun j hj => ⟨⟨some "UNKNOWN_ERROR", some (-32011)⟩, by
      have hj0 : j = 0 := by omega
      subst hj0
      exact ⟨rfl, rfl⟩⟩)
    rfl

/-- C5: a first-attempt failure that does not match the transient
signature is rethrown unchanged with no sleeps (for any behaviour of the
operation at later attempts, hence without invoking it again); and when
every attempt fails with the transient signature, the last attempt's
error propagates after maxRetries - 1 sleeps. -/
theorem retryOperation_nonTransient_and_exhaustion {α : Type} :
    (∀ (op : ℕ → Except JsError α) (e : JsError) (maxRetries delay : ℕ),
      1 ≤ maxRetries → op 0 = Except.error e → isTransient e = false →
      retryOperation op maxRetries delay = (.err e, [])) ∧
    (∀ (op : ℕ → Except JsError α) (es : ℕ → JsError) (maxRetries delay : ℕ),
      1 ≤ maxRetries →
      (∀ j, j < maxRetries → op j = Except.error (es j) ∧
        isTransient (es j) = true) →
      retryOperation op maxRetries delay =
        (.err (es (maxRetries - 1)), List.replicate (maxRetries - 1) delay)) := by
  constructor
  · intro op e maxRetries delay hr hop htr
    obtain ⟨r', rfl⟩ : ∃ r', maxRetries = r' + 1 := ⟨maxRetries - 1, by omega⟩
    simp [retryOperation, retryGo, hop, htr]
  · intro op es maxRetries delay hr hfail
    unfold retryOperation
    have := retryGo_all_transient op delay es maxRetries 0 hr
      (fun j hj => by simpa using hfail j hj)
    simpa using this

/-- C5 (witness): a non-transient error (no error code at all) at the
first attempt is rethrown with no sleeps; and three transient failures
with three attempts allowed propagate the third error after two
sleeps. -/
theorem retryOperation_nonTransient_and_exhaustion_witness :
    retryOperation (fun _ => (Except.error ⟨none, none⟩ : Except JsError ℕ))
      3 2000 = (.err ⟨none, none⟩, []) ∧
    retryOperation
      (fun _ => (Except.error ⟨some "UNKNOWN_ERROR", some (-32011)⟩ :
        Except JsError ℕ)) 3 2000 =
      (.err ⟨some "UNKNOWN_ERROR", some (-32011)⟩,
        List.replicate 2 2000) := by
  constructor
  · exact retryOperation_nonTransient_and_exhaustion.1
      (fun _ => Except.error ⟨none, none⟩) ⟨none, none⟩ 3 2000 (by omega)
      rfl rfl
  · exact retryOperation_nonTransient_and_exhaustion.2
      (fun _ => Except.error ⟨some "UNKNOWN_ERROR", some (-32011)⟩)
      (fun _ => ⟨some "UNKNOWN_ERROR", some (-32011)⟩) 3 2000 (by omega)
      (fun j hj => ⟨rfl, rfl⟩)

/-- The batch loop flattens to the indexed job list and produces one
fixed 2000 ms delay per group except the last (groups of 3, so
`ceil(n / 3) - 1` delays). -/
lemma mainBatchLoop_eq (ws : List Bool) (i : ℕ) :
    mainBatchLoop ws i =
      (List.enumFrom i ws, List.replicate ((ws.length + 2) / 3 - 1) 2000) := by
  generalize hn : ws.length = n
  induction n using Nat.strong_induction_on generalizing ws i with
  | _ n ih =>
    match ws with
    | [] =>
      have hn0 : n = 0 := by simpa using hn.symm
      subst hn0
      simp [mainBatchLoop]
    | w :: tl =>
      rw [mainBatchLoop]
      have hlen : (w :: tl).length = n := hn
      have hpos : 0 < n := by
        rw [← hlen]
        exact Nat.succ_pos tl.length
      rcases le_or_lt n 3 with h3 | h3
      · have htake : (w :: tl).take 3 = w :: tl :=
          List.take_of_length_le (by omega)
        have hdrop : (w :: tl).drop 3 = [] :=
          List.drop_eq_nil_of_le (by omega)
        rw [htake, hdrop]
        have hrec := ih 0 (by omega) ([] : List Bool) (i + 3) rfl
        rw [hrec]
        have h1 : (n + 2) / 3 - 1 = 0 := by omega
        simp [h1]
      · have hdroplen : ((w :: tl).drop 3).length = n - 3 := by
          rw [List.length_drop, hlen]
        have hrec := ih (n - 3) (by omega) ((w :: tl).drop 3) (i + 3) hdroplen
        have hne : ((w :: tl).drop 3).isEmpty = false := by
          cases hd : (w :: tl).drop 3 with
          | nil =>
            rw [hd] at hdroplen
            simp at hdroplen
            omega
          | cons a l => rfl
        have htakelen : ((w :: tl).take 3).length = 3 := by
          rw [List.length_take]
          omega
        have hsplit : List.enumFrom i ((w :: tl).take 3) ++
            List.enumFrom (i + 3) ((w :: tl).drop 3) =
            List.enumFrom i (w :: tl) := by
          rw [show i + 3 = i + ((w :: tl).take 3).length by rw [htakelen],
            ← List.enumFrom_append, List.take_append_drop]
        have hdelay : (2000 : ℕ) :: List.replicate ((n - 3 + 2) / 3 - 1) 2000 =
            List.replicate ((n + 2) / 3 - 1) 2000 := by
          have h2 : (n + 2) / 3 - 1 = ((n - 3 + 2) / 3 - 1) + 1 := by omega
          rw [h2, List.replicate_succ]
        simp only [hrec, hne, Bool.false_eq_true, if_false]
        rw [hsplit, hdelay]

/-- C6: the batch run works through the jobs in consecutive groups of 3
(each group settled before the next starts), returns one outcome per job
carrying the job's index and success flag in the same order as the jobs,
and takes the fixed 2000 ms delay after every group but the last; in
particular, with 5 jobs where job 2 fails and the rest succeed, it
returns 5 outcomes with job 2 marked failed and the others successful,
without throwing. -/
theorem mainBatchLoop_spec :
    (∀ (ws : List Bool) (i : ℕ),
      mainBatchLoop ws i =
        (List.enumFrom i ws, List.replicate ((ws.length + 2) / 3 - 1) 2000)) ∧
    mainBatchLoop [true, false, true, true, true] 0 =
      ([(0, true), (1, false), (2, true), (3, true), (4, true)], [2000]) := by
  refine ⟨mainBatchLoop_eq, ?_⟩
  rw [mainBatchLoop_eq]
  rfl

/-- C7 (counterexample): two wallets, 3 units of each asset required;
wallet 0 is fully funded, wallet 1 holds only 2 USDT.  The funding check
fails, and `main` aborts the whole run: the submission list is empty, so
the fully funded sibling wallet 0 is excluded too — contradicting the
claim that only the short wallet's job is excluded while siblings
proceed. -/
theorem fundingShortfall_aborts_run_counterexample :
    checkWallet ⟨3, 3⟩ 3 3 = (true, true) ∧
    checkWallet ⟨3, 2⟩ 3 3 = (true, false) ∧
    validateWalletBalances [⟨3, 3⟩, ⟨3, 2⟩] 3 3 = false ∧
    walletsSubmitted [⟨3, 3⟩, ⟨3, 2⟩] 3 3 = [] ∧
    walletsSubmitted [⟨3, 3⟩, ⟨3, 2⟩] 3 3 ≠ [0] := by
  refine ⟨rfl, rfl, rfl, rfl, ?_⟩
  decide

/-- C7 (amended): the funding check uses ≥, so a balance exactly equal
to the required amount is sufficient; the check fails exactly when some
wallet is short of either asset, with the per-wallet flags identifying
the specific insufficient asset; and on any shortfall the whole run is
aborted before submission — no wallet's job, including fully funded
siblings, reaches the submission phase. -/
theorem validateWalletBalances_spec :
    (∀ requiredOkb requiredUsdt : ℕ,
      checkWallet ⟨requiredOkb, requiredUsdt⟩ requiredOkb requiredUsdt =
        (true, true)) ∧
    (∀ (ws : List WalletBalance) (requiredOkb requiredUsdt : ℕ),
      validateWalletBalances ws requiredOkb requiredUsdt = false ↔
        ∃ w ∈ ws, w.okb < requiredOkb ∨ w.usdt < requiredUsdt) ∧
    (∀ (ws : List WalletBalance) (requiredOkb requiredUsdt : ℕ),
      validateWalletBalances ws requiredOkb requiredUsdt = false →
        walletsSubmitted ws requiredOkb requiredUsdt = []) := by
  refine ⟨?_, ?_, ?_⟩
  · intro rO rU
    simp [checkWallet]
  · intro ws rO rU
    unfold validateWalletBalances checkWallet
    rw [← Bool.not_eq_true, List.all_eq_true]
    constructor
    · intro h
      rcases not_forall.mp h with ⟨w, hw⟩
      rcases Classical.not_imp.mp hw with ⟨hmem, hflag⟩
      simp only [Bool.and_eq_true, decide_eq_true_eq] at hflag
      exact ⟨w, hmem, by omega⟩
    · rintro ⟨w, hw, hshort⟩
      intro hall
      have hcon := hall w hw
      simp only [Bool.and_eq_true, decide_eq_true_eq] at hcon
      omega
  · intro ws rO rU hfalse
    unfold walletsSubmitted
    rw [hfalse]
    rfl

/-- C7 (witness): the amended theorem's abort clause applied to a
single wallet short of USDT: nothing is submitted. -/
theorem validateWalletBalances_spec_witness :
    walletsSubmitted [⟨5, 2⟩] 3 3 = [] :=
  validateWalletBalances_spec.2.2 [⟨5, 2⟩] 3 3 (by decide)

/-- C8: an allowance of at least half the total supply short-circuits
the authorization step — it returns null, submits no approval, and the
allowance is unchanged; otherwise a nonzero (insufficient) allowance is
first reset by an awaited approve(0) and then an awaited approve of the
full total supply, in that order. -/
theorem approveTokenForSwap_spec :
    (∀ currentAllowance totalSupply : ℕ,
      totalSupply / 2 ≤ currentAllowance →
      approveTokenForSwap currentAllowance totalSupply = (none, []) ∧
      applyApprovals currentAllowance
        (approveTokenForSwap currentAllowance totalSupply).2 =
        currentAllowance) ∧
    (∀ currentAllowance totalSupply : ℕ,
      currentAllowance < totalSupply / 2 → 0 < currentAllowance →
      approveTokenForSwap currentAllowance totalSupply =
        (some (), [0, totalSupply])) := by
  constructor
  · intro a s h
    have heq : approveTokenForSwap a s = (none, []) := by
      unfold approveTokenForSwap
      rw [if_pos h]
    refine ⟨heq, ?_⟩
    rw [heq]
    rfl
  · intro a s hlt hpos
    unfold approveTokenForSwap
    rw [if_neg (Nat.not_le.mpr hlt), if_pos hpos]

/-- C8 (witness): allowance 5 with total supply 10 skips (10 / 2 = 5 ≤
5), leaving the allowance at 5; allowance 4 resets then approves the
full supply. -/
theorem approveTokenForSwap_spec_witness :
    (approveTokenForSwap 5 10 = (none, []) ∧
      applyApprovals 5 (approveTokenForSwap 5 10).2 = 5) ∧
    approveTokenForSwap 4 10 = (some (), [0, 10]) :=
  ⟨approveTokenForSwap_spec.1 5 10 (by decide),
    approveTokenForSwap_spec.2 4 10 (by decide) (by decide)⟩

/-- C9: immediately before the router call the submitter re-checks the
live preconditions in source order — OKB balance, then USDT balance,
then USDT allowance (which passes when it covers the amount or is at
least half the total supply) — and any failure yields an error carrying
the required and actual amounts, with no deposit call produced. -/
theorem addLiquidityETH_recheck :
    (∀ (env : FinalCheckEnv) (u o : ℕ) (t : ℚ),
      env.okbBalance < o →
      addLiquidityETH env u o t =
        .error (.okbInsufficient o env.okbBalance)) ∧
    (∀ (env : FinalCheckEnv) (u o : ℕ) (t : ℚ),
      ¬env.okbBalance < o → env.usdtBalance < u →
      addLiquidityETH env u o t =
        .error (.usdtInsufficient u env.usdtBalance)) ∧
    (∀ (env : FinalCheckEnv) (u o : ℕ) (t : ℚ),
      ¬env.okbBalance < o → ¬env.usdtBalance < u →
      env.usdtAllowance < u → env.usdtAllowance < env.usdtTotalSupply / 2 →
      addLiquidityETH env u o t =
        .error (.allowanceInsufficient u env.usdtAllowance)) ∧
    (∀ (env : FinalCheckEnv) (u o : ℕ) (t : ℚ) (d : DepositCall),
      (env.okbBalance < o ∨ env.usdtBalance < u ∨
        (env.usdtAllowance < u ∧
          env.usdtAllowance < env.usdtTotalSupply / 2)) →
      addLiquidityETH env u o t ≠ .ok d) := by
  have h1 : ∀ (env : FinalCheckEnv) (u o : ℕ) (t : ℚ),
      env.okbBalance < o →
      addLiquidityETH env u o t = .error (.okbInsufficient o env.okbBalance) := by
    intro env u o t h
    unfold addLiquidityETH
    rw [if_pos h]
  have h2 : ∀ (env : FinalCheckEnv) (u o : ℕ) (t : ℚ),
      ¬env.okbBalance < o → env.usdtBalance < u →
      addLiquidityETH env u o t =
        .error (.usdtInsufficient u env.usdtBalance) := by
    intro env u o t ha hb
    unfold addLiquidityETH
    rw [if_neg ha, if_pos hb]
  have h3 : ∀ (env : FinalCheckEnv) (u o : ℕ) (t : ℚ),
      ¬env.okbBalance < o → ¬env.usdtBalance < u →
      env.usdtAllowance < u → env.usdtAllowance < env.usdtTotalSupply / 2 →
      addLiquidityETH env u o t =
        .error (.allowanceInsufficient u env.usdtAllowance) := by
    intro env u o t ha hb hc hd
    unfold addLiquidityETH
    rw [if_neg ha, if_neg hb, if_pos ⟨hc, hd⟩]
  refine ⟨h1, h2, h3, ?_⟩
  intro env u o t d hfail
  rcases hfail with h | h | h
  · rw [h1 env u o t h]
    exact fun hcon => Except.noConfusion hcon
  · by_cases ha : env.okbBalance < o
    · rw [h1 env u o t ha]
      exact fun hcon => Except.noConfusion hcon
    · rw [h2 env u o t ha h]
      exact fun hcon => Except.noConfusion hcon
  · by_cases ha : env.okbBalance < o
    · rw [h1 env u o t ha]
      exact fun hcon => Except.noConfusion hcon
    · by_cases hb : env.usdtBalance < u
      · rw [h2 env u o t ha hb]
        exact fun hcon => Except.noConfusion hcon
      · rw [h3 env u o t ha hb h.1 h.2]
        exact fun hcon => Except.noConfusion hcon

/-- C9 (witness): a wallet holding 3 OKB when 5 are required fails the
OKB re-check with an error naming required 5 and actual 3. -/
theorem addLiquidityETH_recheck_witness :
    addLiquidityETH ⟨3, 10, 10, 20⟩ 5 5 10 =
      .error (.okbInsufficient 5 3) :=
  addLiquidityETH_recheck.1 ⟨3, 10, 10, 20⟩ 5 5 10 (by decide)

/-- C1: the oracle tries its tiers in order — the direct-route quote
wins whenever `getAmountsOut` succeeds; a null quote is only possible
when the direct-route step threw (the reserve tier is reached only
then); and the caller-side selection always produces a positive OKB
amount, because the hardcoded reference price (1 OKB = 168.44 USDT) is
applied whenever the quote is null or non-positive and yields a positive
amount for any positive USDT input. -/
theorem getOkbAmountFromRouter_tiers :
    (∀ (env : OracleEnv) (cfgUsdt : String) (u v : ℕ),
      env.getAmountsOut = .ok v →
      getOkbAmountFromRouter env cfgUsdt u = some v) ∧
    (∀ (env : OracleEnv) (cfgUsdt : String) (u : ℕ),
      getOkbAmountFromRouter env cfgUsdt u = none →
      env.getAmountsOut = .thrown) ∧
    (∀ u : ℕ, 0 < u → 0 < referenceFallback u) ∧
    (∀ (quoted : Option ℕ) (u : ℕ), 0 < u → 0 < selectOkbAmount quoted u) := by
  have hdir : ∀ (env : OracleEnv) (cfgUsdt : String) (u v : ℕ),
      env.getAmountsOut = .ok v →
      getOkbAmountFromRouter env cfgUsdt u = some v := by
    intro env cfgUsdt u v h
    unfold getOkbAmountFromRouter
    rw [h]
  have hfb : ∀ u : ℕ, 0 < u → 0 < referenceFallback u := by
    intro u hu
    have h1 : (0 : ℚ) < (u : ℚ) := by exact_mod_cast hu
    unfold referenceFallback
    positivity
  refine ⟨hdir, ?_, hfb, ?_⟩
  · intro env cfgUsdt u hnone
    cases henv : env.getAmountsOut with
    | ok v =>
      rw [hdir env cfgUsdt u v henv] at hnone
      exact Option.noConfusion hnone
    | thrown => rfl
  · intro quoted u hu
    cases quoted with
    | none => exact hfb u hu
    | some v =>
      simp only [selectOkbAmount]
      split
      · rename_i hv
        exact_mod_cast hv
      · exact hfb u hu

/-- C1 (witness): with a successful direct-route quote of 42 the oracle
returns 42, and the caller selects a positive amount; with a null quote
the caller's reference-fallback amount is positive. -/
theorem getOkbAmountFromRouter_tiers_witness :
    getOkbAmountFromRouter ⟨.ok 42, .thrown, .thrown, .thrown, .thrown, false⟩
      "0xa" 5 = some 42 ∧
    0 < selectOkbAmount (some 42) 5 ∧
    0 < selectOkbAmount none 5 :=
  ⟨getOkbAmountFromRouter_tiers.1 ⟨.ok 42, .thrown, .thrown, .thrown, .thrown,
      false⟩ "0xa" 5 42 rfl,
    getOkbAmountFromRouter_tiers.2.2.2 (some 42) 5 (by decide),
    getOkbAmountFromRouter_tiers.2.2.2 none 5 (by decide)⟩

/-- C2: in the reserve tier (direct route threw, factory and pair reads
succeed), the reserves are oriented by case-insensitively comparing the
pair's token0 with the configured USDT address; a zero pair address or a
WOKB-side reserve below 0.1 WOKB yields null, and otherwise the quote is
`knownAmount * reserveB / reserveA`, which equals the floor of the exact
rational quotient. -/
theorem getOkbAmountFromRouter_reserveQuote
    (env : OracleEnv) (cfgUsdt f pairAddress t0 : String) (u r0 r1 : ℕ)
    (hu : 0 < u)
    (hdirect : env.getAmountsOut = .thrown)
    (hfactory : env.factory = .ok f)
    (hpair : env.getPair = .ok pairAddress)
    (hres : env.getReserves = .ok (r0, r1))
    (ht0 : env.token0 = .ok t0)
    (hquote : env.quoteThrows = false) :
    (pairAddress = zeroAddress →
      getOkbAmountFromRouter env cfgUsdt u = none) ∧
    (pairAddress ≠ zeroAddress →
      ((if jsToLowerCase t0 = jsToLowerCase cfgUsdt then (r0, r1)
          else (r1, r0)).2 < minWokbReserve →
        getOkbAmountFromRouter env cfgUsdt u = none) ∧
      (¬(if jsToLowerCase t0 = jsToLowerCase cfgUsdt then (r0, r1)
          else (r1, r0)).2 < minWokbReserve →
        getOkbAmountFromRouter env cfgUsdt u =
          some (u * (if jsToLowerCase t0 = jsToLowerCase cfgUsdt then (r0, r1)
            else (r1, r0)).2 /
            (if jsToLowerCase t0 = jsToLowerCase cfgUsdt then (r0, r1)
              else (r1, r0)).1) ∧
        u * (if jsToLowerCase t0 = jsToLowerCase cfgUsdt then (r0, r1)
            else (r1, r0)).2 /
          (if jsToLowerCase t0 = jsToLowerCase cfgUsdt then (r0, r1)
            else (r1, r0)).1 =
          Nat.floor (((u * (if jsToLowerCase t0 = jsToLowerCase cfgUsdt
              then (r0, r1) else (r1, r0)).2 : ℕ) : ℚ) /
            (((if jsToLowerCase t0 = jsToLowerCase cfgUsdt then (r0, r1)
              else (r1, r0)).1 : ℕ) : ℚ)))) := by
  unfold getOkbAmountFromRouter
  rw [hdirect, hfactory, hpair, hres, ht0, hquote]
  dsimp only
  constructor
  · intro hzero
    rw [if_pos hzero]
  · intro hnzero
    rw [if_neg hnzero]
    constructor
    · intro hlow
      rw [if_pos hlow]
    · intro hhigh
      rw [if_neg hhigh]
      exact ⟨rfl, (Nat.floor_div_eq_div _ _).symm⟩

/-- C2 (witness): direct route thrown, pair found with token0 equal to
the configured USDT address up to case, reserves (7 USDT-units, 1 WOKB):
the quote is `3000000 * 10^18 / 7` and the zero/low-reserve guards do
not fire. -/
theorem getOkbAmountFromRouter_reserveQuote_witness :
    getOkbAmountFromRouter
      ⟨.thrown, .ok "0xF", .ok "0xP", .ok (7, 10 ^ 18), .ok "0xAB", false⟩
      "0xab" (3 * 10 ^ 6) = some (3 * 10 ^ 6 * 10 ^ 18 / 7) := by
  have h := (getOkbAmountFromRouter_reserveQuote
    ⟨.thrown, .ok "0xF", .ok "0xP", .ok (7, 10 ^ 18), .ok "0xAB", false⟩
    "0xab" "0xF" "0xP" "0xAB" (3 * 10 ^ 6) 7 (10 ^ 18) (by decide)
    rfl rfl rfl rfl rfl rfl).2 (by decide)
  have h2 := h.2 (by decide)
  rw [h2.1]
  decide
